import Mathlib

/-!
Verification of the `File` entity and symlink-resolution algorithm of
`src/fs/file.rs` (a directory-listing tool's filesystem introspection layer).

Paths are modelled as strings over `/`-separated components, following the
component-parsing rules of the path library the source uses (as exercised by
the source's own unit tests: `filename("/") = "/"`, `filename("./..") = ".."`,
and so on).  Filesystem calls (`read_link`, the following `metadata` stat and
the non-following `symlink_metadata` stat) are modelled as an explicit
`FileSystem` record of fallible lookups, so that the I/O behaviour of each
operation is visible in its type.
-/

namespace Exa

/-- An opaque I/O error payload, carried by failed filesystem calls. -/
structure IOError where
  code : Nat
deriving DecidableEq

/-- The file-type tag of a metadata snapshot: regular file, directory,
symbolic link, or anything else. -/
inductive FileTypeTag where
  | file
  | dir
  | symlink
  | other
deriving DecidableEq

/-- A metadata (`stat`) snapshot: the file-type tag and the byte length. -/
structure Metadata where
  file_type : FileTypeTag
  len : Nat
deriving DecidableEq

/-- Embeds `Metadata::is_dir`. -/
def Metadata.is_dir (m : Metadata) : Bool := m.file_type = FileTypeTag.dir

/-- Embeds `Metadata::is_file`. -/
def Metadata.is_file (m : Metadata) : Bool := m.file_type = FileTypeTag.file

/-- Embeds `FileType::is_symlink` of the metadata's file type. -/
def Metadata.is_symlink (m : Metadata) : Bool := m.file_type = FileTypeTag.symlink

/-- One component of a path, after normalisation: the root directory `/`,
the current directory `.`, the parent directory `..`, or a normal name. -/
inductive PathComponent where
  | rootDir
  | curDir
  | parentDir
  | normal (chars : List Char)
deriving DecidableEq

/-- The textual form of a component (`Component::as_os_str`). -/
def componentChars : PathComponent → List Char
  | PathComponent.rootDir => ['/']
  | PathComponent.curDir => ['.']
  | PathComponent.parentDir => ['.', '.']
  | PathComponent.normal cs => cs

/-- Split a character list on `/`, keeping empty pieces. -/
def splitOnSlash : List Char → List (List Char)
  | [] => [[]]
  | c :: cs =>
    if c = '/' then [] :: splitOnSlash cs
    else
      match splitOnSlash cs with
      | [] => [[c]]
      | p :: ps => (c :: p) :: ps

/-- The body components of a path: empty and `.` pieces are dropped,
`..` becomes the parent-directory component. -/
def bodyComponents (parts : List (List Char)) : List PathComponent :=
  parts.filterMap fun p =>
    if p = ['.'] then none
    else if p = ['.', '.'] then some PathComponent.parentDir
    else some (PathComponent.normal p)

/-- Embeds `Path::components` for `/`-separated paths: a leading `/` yields the
root component; a leading `.` piece (when there is no root) is kept as the
current-directory component; all other `.` and empty pieces are dropped. -/
def components (s : String) : List PathComponent :=
  let parts := (splitOnSlash s.toList).filter (fun p => !p.isEmpty)
  match s.toList with
  | '/' :: _ => PathComponent.rootDir :: bodyComponents parts
  | _ =>
    if parts.head? = some ['.'] then PathComponent.curDir :: bodyComponents parts
    else bodyComponents parts

/-- Embeds `Path::is_absolute`: the path begins at the root. -/
def is_absolute (s : String) : Bool :=
  match s.toList with
  | '/' :: _ => true
  | _ => false

/-- Join component texts with `/` separators. -/
def joinParts : List (List Char) → List Char
  | [] => []
  | [p] => p
  | p :: q :: ps => p ++ '/' :: joinParts (q :: ps)

/-- Rebuild a path string from its components. -/
def pathOfComponents : List PathComponent → String
  | PathComponent.rootDir :: rest => String.mk ('/' :: joinParts (rest.map componentChars))
  | cs => String.mk (joinParts (cs.map componentChars))

/-- Embeds `Path::parent`: the path minus its last component; `none` for an empty
path or the bare root. -/
def parentPath (s : String) : Option String :=
  match (components s).getLast? with
  | none => none
  | some PathComponent.rootDir => none
  | some _ => some (pathOfComponents (components s).dropLast)

/-- Embeds `Path::join` / `PathBuf::push`: an absolute argument replaces the path;
otherwise the argument is appended, inserting a `/` separator when needed. -/
def pathJoin (s p : String) : String :=
  if is_absolute p then p
  else if s.toList = [] then p
  else if s.toList.getLast? = some '/' then String.mk (s.toList ++ p.toList)
  else String.mk (s.toList ++ '/' :: p.toList)

/-- Embeds `Path::file_name`: the last component when it is a normal name. -/
def file_name (s : String) : Option String :=
  match (components s).getLast? with
  | some (PathComponent.normal cs) => some (String.mk cs)
  | _ => none

/-- Embeds `char::to_ascii_lowercase`: an ASCII uppercase letter (codepoints 65–90)
is shifted down by 32; every other character is unchanged. -/
def toAsciiLower (c : Char) : Char :=
  if 65 ≤ c.toNat ∧ c.toNat ≤ 90 then Char.ofNat (c.toNat + 32) else c

/-- The characters after the last `.` of a name (`str::rfind('.')` plus the
suffix slice), or `none` when the name has no dot. -/
def afterLastDot : List Char → Option (List Char)
  | [] => none
  | c :: cs =>
    match afterLastDot cs with
    | some r => some r
    | none => if c = '.' then some cs else none

/-- A directory context.  Modelled from the spec: the `Dir` type itself is
outside the excerpt (`src/fs/dir.rs` is not part of the source); the spec
describes `parent_dir` only as the directory that produced the entry, so a
`Dir` is modelled by its path. -/
structure Dir where
  path : String
deriving DecidableEq

/-- Modelled from the spec: `Dir::join` is outside the excerpt.  The spec says
a relative link destination is resolved "relative to … the File's
parent-directory context", so joining resolves the argument against the
directory's path. -/
def Dir.join (d : Dir) (p : String) : String := pathJoin d.path p

/-- The `File` entity: a path together with the name and extension derived at
construction time, a cached metadata snapshot, and an optional
parent-directory context. -/
structure File where
  name : String
  ext : Option String
  path : String
  metadata : Metadata
  parent_dir : Option Dir
deriving DecidableEq

/-- The explicit filesystem state the operations run against: the raw
destination recorded for each link (`fs::read_link`), the link-following stat
(`fs::metadata`) and the non-following stat (`fs::symlink_metadata`). -/
structure FileSystem where
  read_link : String → Except IOError String
  metadata : String → Except IOError Metadata
  symlink_metadata : String → Except IOError Metadata

/-- Embeds `File::filename`: the last component of the path, or the raw path text
when there is no last component. -/
def File.filename (path : String) : String :=
  match (components path).getLast? with
  | some back => String.mk (componentChars back)
  | none => path

/-- Embeds `File::ext`: the lowercased characters after the last dot of the path's
`file_name`, or `none` when there is no file name or no dot. -/
def File.extOf (path : String) : Option String :=
  match file_name path with
  | none => none
  | some name => (afterLastDot name.toList).map fun cs => String.mk (cs.map toAsciiLower)

/-- Embeds `File::new`: derive the name (override or last path component) and the
extension (from the path), then perform one non-following stat. -/
def File.new (fs : FileSystem) (path : String) (parent_dir : Option Dir)
    (filename : Option String) : Except IOError File :=
  let name := filename.getD (File.filename path)
  let ext := File.extOf path
  match fs.symlink_metadata path with
  | Except.error e => Except.error e
  | Except.ok metadata => Except.ok ⟨name, ext, path, metadata, parent_dir⟩

/-- Embeds `File::is_directory`. -/
def File.is_directory (f : File) : Bool := f.metadata.is_dir

/-- Embeds `File::is_file`. -/
def File.is_file (f : File) : Bool := f.metadata.is_file

/-- Embeds `File::is_link`. -/
def File.is_link (f : File) : Bool := f.metadata.is_symlink

/-- Embeds `File::is_pipe`: unimplemented on this platform, always false. -/
def File.is_pipe (_ : File) : Bool := false

/-- Embeds `File::is_char_device`: unimplemented on this platform, always false. -/
def File.is_char_device (_ : File) : Bool := false

/-- Embeds `File::is_block_device`: unimplemented on this platform, always false. -/
def File.is_block_device (_ : File) : Bool := false

/-- Embeds `File::is_socket`: unimplemented on this platform, always false. -/
def File.is_socket (_ : File) : Bool := false

/-- Embeds `File::is_executable_file`: a regular file whose extension is `exe`. -/
def File.is_executable_file (f : File) : Bool :=
  f.is_file && f.ext = some "exe"

/-- Embeds `File::reorient_target_path`: an absolute destination is kept; otherwise
it is joined onto the parent-directory context, else onto the parent of the
File's own path, else onto the File's own path. -/
def File.reorient_target_path (f : File) (path : String) : String :=
  if is_absolute path then path
  else
    match f.parent_dir with
    | some dir => dir.join path
    | none =>
      match parentPath f.path with
      | some par => pathJoin par path
      | none => pathJoin f.path path

/-- The result of following a symlink (`FileTarget`): the resolved target
file, the broken destination path, or the I/O error. -/
inductive FileTarget where
  | ok (target : File)
  | broken (path : String)
  | err (error : IOError)
deriving DecidableEq

/-- Embeds `File::link_target`: read the raw destination (an error becomes the
`err` variant), reorient it, then stat the reoriented path following links;
on success build a fresh target File from the raw destination and the stat,
with no parent directory; on failure return `broken` with the raw
destination. -/
def File.link_target (fs : FileSystem) (f : File) : FileTarget :=
  match fs.read_link f.path with
  | Except.error e => FileTarget.err e
  | Except.ok path =>
    let absolute_path := f.reorient_target_path path
    match fs.metadata absolute_path with
    | Except.ok metadata =>
      FileTarget.ok ⟨File.filename path, File.extOf path, path, metadata, none⟩
    | Except.error _ => FileTarget.broken path

/-- Embeds `File::points_to_directory`: a directory, or a link whose resolved target
points to a directory.  The source recursion is bounded here by explicit
fuel; on a filesystem whose following stat never reports a symlink the result
is fuel-independent (proved below). -/
def File.points_to_directory (fs : FileSystem) : Nat → File → Bool
  | 0, _ => false
  | fuel + 1, f =>
    if f.is_directory then true
    else if f.is_link then
      match File.link_target fs f with
      | FileTarget.ok target => File.points_to_directory fs fuel target
      | _ => false
    else false

/-- Embeds `FileTarget::is_broken`: every variant but `ok`. -/
def FileTarget.is_broken : FileTarget → Bool
  | FileTarget.ok _ => false
  | FileTarget.broken _ => true
  | FileTarget.err _ => true

/-- The file type tag rendered in the leftmost permissions column (`f::Type`). -/
inductive FType where
  | file
  | directory
  | pipe
  | link
  | charDevice
  | blockDevice
  | socket
  | special
deriving DecidableEq

/-- Embeds `File::type_char`: the first matching classification, `special` as the
fallback. -/
def File.type_char (f : File) : FType :=
  if f.is_file then FType.file
  else if f.is_directory then FType.directory
  else if f.is_pipe then FType.pipe
  else if f.is_link then FType.link
  else if f.is_char_device then FType.charDevice
  else if f.is_block_device then FType.blockDevice
  else if f.is_socket then FType.socket
  else FType.special

/-- A (major, minor) device-ID pair (`f::DeviceIDs`). -/
structure DeviceIDs where
  major : Nat
  minor : Nat
deriving DecidableEq

/-- The size column value (`f::Size`). -/
inductive FSize where
  | none
  | some (bytes : Nat)
  | deviceIDs (ids : DeviceIDs)
deriving DecidableEq

/-- Embeds `File::size`: no size for directories, device IDs for char/block devices,
otherwise the metadata byte length. -/
def File.size (f : File) : FSize :=
  if f.is_directory then FSize.none
  else if f.is_char_device || f.is_block_device then
    FSize.deviceIDs ⟨0 / 256, 0 % 256⟩
  else FSize.some f.metadata.len

/-- Embeds `File::extension_is_one_of`: membership of the cached extension, false
when there is none. -/
def File.extension_is_one_of (f : File) (choices : List String) : Bool :=
  match f.ext with
  | some ext => choices.contains ext
  | none => false

/-- Embeds `File::name_is_one_of`: membership of the cached name. -/
def File.name_is_one_of (f : File) (choices : List String) : Bool :=
  choices.contains f.name

/-- A filesystem whose link-following stat never reports a symlink — the
defining behaviour of a following stat, which resolves chains of links down
to a non-link target or fails. -/
def FileSystem.wellFormed (fs : FileSystem) : Prop :=
  ∀ p md, fs.metadata p = Except.ok md → md.file_type ≠ FileTypeTag.symlink

/-! Concrete fixtures used by witnesses and counterexamples. -/

/-- A symlink metadata snapshot. -/
def mdSymlink : Metadata := ⟨FileTypeTag.symlink, 0⟩

/-- A directory metadata snapshot. -/
def mdDir : Metadata := ⟨FileTypeTag.dir, 0⟩

/-- A regular-file metadata snapshot of five bytes. -/
def mdFile : Metadata := ⟨FileTypeTag.file, 5⟩

/-- A File for a symlink at path `link`. -/
def linkFile : File := ⟨"link", none, "link", mdSymlink, none⟩

/-- A File for a regular file at path `f`. -/
def regFile : File := ⟨"f", none, "f", mdFile, none⟩

/-- A filesystem where `link` points to `t` and `t` is a directory. -/
def fsResolved : FileSystem :=
  ⟨fun p => if p = "link" then Except.ok "t" else Except.error ⟨1⟩,
   fun p => if p = "t" then Except.ok mdDir else Except.error ⟨2⟩,
   fun _ => Except.error ⟨3⟩⟩

/-- A filesystem where `link` points to `t` but nothing stats successfully. -/
def fsBroken : FileSystem :=
  ⟨fun p => if p = "link" then Except.ok "t" else Except.error ⟨1⟩,
   fun _ => Except.error ⟨2⟩,
   fun _ => Except.error ⟨3⟩⟩

/-- A filesystem whose only successful call is the non-following stat of
`foo.txt`. -/
def fsStatFile : FileSystem :=
  ⟨fun _ => Except.error ⟨1⟩,
   fun _ => Except.error ⟨2⟩,
   fun p => if p = "foo.txt" then Except.ok mdFile else Except.error ⟨3⟩⟩

/-- A File named `Makefile` with no extension. -/
def makefileFile : File := ⟨"Makefile", none, "Makefile", mdFile, none⟩

/-! Helper lemmas. -/

/-- ASCII lowercasing never produces an ASCII uppercase letter. -/
theorem toAsciiLower_not_upper (c : Char) :
    (toAsciiLower c).toNat < 65 ∨ 90 < (toAsciiLower c).toNat := by
  unfold toAsciiLower
  by_cases h : 65 ≤ c.toNat ∧ c.toNat ≤ 90
  · rw [if_pos h]
    rcases h with ⟨h1, h2⟩
    revert h1 h2
    generalize c.toNat = n
    intro h1 h2
    interval_cases n <;> decide
  · rw [if_neg h]
    omega

/-- Unfolding a successful extension parse. -/
theorem extOf_eq_some {p s : String} (h : File.extOf p = some s) :
    ∃ name cs, file_name p = some name ∧ afterLastDot name.toList = some cs ∧
      s = String.mk (cs.map toAsciiLower) := by
  unfold File.extOf at h
  cases hf : file_name p with
  | none => simp only [hf] at h; exact absurd h (by simp)
  | some name =>
    simp only [hf] at h
    cases ha : afterLastDot name.toList with
    | none => simp only [ha] at h; exact absurd h (by simp)
    | some cs =>
      rw [ha] at h
      simp only [Option.map] at h
      injection h with h
      exact ⟨name, cs, rfl, ha, h.symm⟩

/-- One-step unfolding of `points_to_directory`. -/
theorem points_to_directory_succ (fs : FileSystem) (n : Nat) (f : File) :
    File.points_to_directory fs (n + 1) f =
      if f.is_directory then true
      else if f.is_link then
        match File.link_target fs f with
        | FileTarget.ok target => File.points_to_directory fs n target
        | _ => false
      else false := rfl

/-- A resolved link target is never itself a link on a well-formed
filesystem, because its metadata comes from the following stat. -/
theorem link_target_ok_not_link {fs : FileSystem} (hwf : fs.wellFormed) {f t : File}
    (h : File.link_target fs f = FileTarget.ok t) : t.is_link = false := by
  unfold File.link_target at h
  cases hr : fs.read_link f.path with
  | error e => simp only [hr] at h; exact absurd h (by simp)
  | ok dest =>
    simp only [hr] at h
    cases hm : fs.metadata (f.reorient_target_path dest) with
    | error e => simp only [hm] at h; exact absurd h (by simp)
    | ok md =>
      simp only [hm] at h
      injection h with h
      subst h
      simp [File.is_link, Metadata.is_symlink, hwf _ _ hm]

/-- On a non-link, `points_to_directory` is just the directory test. -/
theorem points_to_directory_not_link (fs : FileSystem) (n : Nat) {f : File}
    (hl : f.is_link = false) :
    File.points_to_directory fs (n + 1) f = f.is_directory := by
  rw [points_to_directory_succ]
  by_cases hd : f.is_directory = true
  · simp [hd]
  · simp [hd, hl]

/-- On a well-formed filesystem the recursion bottoms out after one level,
so any fuel of at least two gives the same answer. -/
theorem points_to_directory_fuel_stable {fs : FileSystem} (hwf : fs.wellFormed)
    (n : Nat) (f : File) :
    File.points_to_directory fs (n + 2) f = File.points_to_directory fs 2 f := by
  rw [show n + 2 = (n + 1) + 1 from rfl, show (2 : Nat) = 1 + 1 from rfl,
    points_to_directory_succ fs (n + 1) f, points_to_directory_succ fs 1 f]
  by_cases hd : f.is_directory = true
  · simp [hd]
  · by_cases hl : f.is_link = true
    · simp only [hd, hl, if_false, if_true, Bool.false_eq_true]
      cases ht : File.link_target fs f with
      | ok t =>
        dsimp only
        rw [points_to_directory_not_link fs n (link_target_ok_not_link hwf ht),
          points_to_directory_not_link fs 0 (link_target_ok_not_link hwf ht)]
      | broken p => rfl
      | err e => rfl
    · simp [hd, hl]

/-! Claim theorems. -/

/-- C1: when the raw link destination reads successfully and the reoriented
destination stats successfully, `link_target` returns the resolved variant
carrying a fresh File whose path, name and extension come from the raw
destination, whose metadata is the following stat of the reoriented path,
and whose parent directory is `none`. -/
theorem link_target_resolved (fs : FileSystem) (f : File) (dest : String)
    (md : Metadata) (hread : fs.read_link f.path = Except.ok dest)
    (hstat : fs.metadata (f.reorient_target_path dest) = Except.ok md) :
    File.link_target fs f =
      FileTarget.ok ⟨File.filename dest, File.extOf dest, dest, md, none⟩ := by
  unfold File.link_target
  simp only [hread, hstat]

/-- C1 witness. -/
theorem link_target_resolved_witness :
    File.link_target fsResolved linkFile =
      FileTarget.ok ⟨File.filename "t", File.extOf "t", "t", mdDir, none⟩ :=
  link_target_resolved fsResolved linkFile "t" mdDir rfl rfl

/-- C2: the statted destination is chosen by priority — an absolute
destination is used as-is, otherwise it is joined onto the parent-directory
context when present, else onto the parent of the File's own path, else onto
the File's own path; in particular a link at `/a/b/link` pointing to `c`
with parent-directory context `/a/b` is statted at `/a/b/c`. -/
theorem reorient_target_path_priority (f : File) (p : String) :
    (is_absolute p = true → f.reorient_target_path p = p)
  ∧ (∀ d, is_absolute p = false → f.parent_dir = some d →
      f.reorient_target_path p = pathJoin d.path p)
  ∧ (∀ par, is_absolute p = false → f.parent_dir = none →
      parentPath f.path = some par → f.reorient_target_path p = pathJoin par p)
  ∧ (is_absolute p = false → f.parent_dir = none → parentPath f.path = none →
      f.reorient_target_path p = pathJoin f.path p)
  ∧ File.reorient_target_path ⟨"link", none, "/a/b/link", mdSymlink, some ⟨"/a/b"⟩⟩
      "c" = "/a/b/c" := by
  refine ⟨fun h => ?_, fun d h hd => ?_, fun par h hd hp => ?_, fun h hd hp => ?_,
    by decide⟩
  · simp [File.reorient_target_path, h]
  · simp [File.reorient_target_path, h, hd, Dir.join]
  · simp [File.reorient_target_path, h, hd, hp]
  · simp [File.reorient_target_path, h, hd, hp]

/-- C2 witness. -/
theorem reorient_target_path_priority_witness :
    File.reorient_target_path regFile "/x" = "/x" :=
  (reorient_target_path_priority regFile "/x").1 rfl

/-- C3: `link_target` folds every failure into a variant — a failed link
read yields the error variant with that failure, a failed stat of the
reoriented destination yields the broken variant with the raw destination —
and `is_broken` is true exactly on the broken and error variants. -/
theorem link_target_error_handling :
    (∀ (fs : FileSystem) (f : File) (e : IOError),
      fs.read_link f.path = Except.error e →
      File.link_target fs f = FileTarget.err e)
  ∧ (∀ (fs : FileSystem) (f : File) (dest : String) (e : IOError),
      fs.read_link f.path = Except.ok dest →
      fs.metadata (f.reorient_target_path dest) = Except.error e →
      File.link_target fs f = FileTarget.broken dest)
  ∧ (∀ t : File, FileTarget.is_broken (FileTarget.ok t) = false)
  ∧ (∀ p : String, FileTarget.is_broken (FileTarget.broken p) = true)
  ∧ (∀ e : IOError, FileTarget.is_broken (FileTarget.err e) = true) := by
  refine ⟨fun fs f e h => ?_, fun fs f dest e hr hm => ?_,
    fun t => rfl, fun p => rfl, fun e => rfl⟩
  · unfold File.link_target
    simp only [h]
  · unfold File.link_target
    simp only [hr, hm]

/-- C3 witness. -/
theorem link_target_error_handling_witness :
    File.link_target fsBroken linkFile = FileTarget.broken "t" :=
  link_target_error_handling.2.1 fsBroken linkFile "t" ⟨2⟩ rfl rfl

/-- C6: the extension of `fester.dat` is `dat`, of the dotfile `.vimrc` is
`vimrc`, of the dotless `jarlsberg` is none; the result is lowercased (the
ASCII lowercasing the source performs: no character of a returned extension
is an ASCII uppercase letter, whatever the input's case). -/
theorem ext_spec :
    File.extOf "fester.dat" = some "dat"
  ∧ File.extOf ".vimrc" = some "vimrc"
  ∧ File.extOf "jarlsberg" = none
  ∧ File.extOf "FESTER.DaT" = some "dat"
  ∧ (∀ (p s : String), File.extOf p = some s →
      ∀ c ∈ s.toList, c.toNat < 65 ∨ 90 < c.toNat) := by
  refine ⟨by decide, by decide, by decide, by decide, fun p s h c hc => ?_⟩
  obtain ⟨name, cs, -, -, rfl⟩ := extOf_eq_some h
  rw [show (String.mk (cs.map toAsciiLower)).toList = cs.map toAsciiLower from rfl]
    at hc
  obtain ⟨d, -, rfl⟩ := List.mem_map.mp hc
  exact toAsciiLower_not_upper d

/-- C6 witness. -/
theorem ext_spec_witness : 'd'.toNat < 65 ∨ 90 < 'd'.toNat :=
  ext_spec.2.2.2.2 "fester.dat" "dat" rfl 'd' (by decide)

/-- C7: filename derivation returns the last path component, falling back to
the raw component for paths with no nameable final component. -/
theorem filename_spec :
    File.filename "fester.dat" = "fester.dat"
  ∧ File.filename "/var/cache/foo.wha" = "foo.wha"
  ∧ File.filename "." = "."
  ∧ File.filename ".." = ".."
  ∧ File.filename "./.." = ".."
  ∧ File.filename "/" = "/"
  ∧ (∀ (p : String) (c : PathComponent), (components p).getLast? = some c →
      File.filename p = String.mk (componentChars c)) := by
  refine ⟨by decide, by decide, by decide, by decide, by decide, by decide,
    fun p c h => ?_⟩
  unfold File.filename
  rw [h]

/-- C7 witness. -/
theorem filename_spec_witness :
    File.filename "a/b" = String.mk (componentChars (PathComponent.normal ['b'])) :=
  filename_spec.2.2.2.2.2.2 "a/b" (PathComponent.normal ['b']) (by decide)

/-- C10: the pipe, char-device, block-device and socket predicates are
always false; `type_char` only ever yields file, directory, link or
special; `size` never yields device IDs — it is none for directories and
the metadata byte length otherwise. -/
theorem special_stubs_type_size (f : File) :
    f.is_pipe = false ∧ f.is_char_device = false ∧ f.is_block_device = false
  ∧ f.is_socket = false
  ∧ (f.type_char = FType.file ∨ f.type_char = FType.directory ∨
     f.type_char = FType.link ∨ f.type_char = FType.special)
  ∧ (∀ ids : DeviceIDs, f.size ≠ FSize.deviceIDs ids)
  ∧ (f.is_directory = true → f.size = FSize.none)
  ∧ (f.is_directory = false → f.size = FSize.some f.metadata.len) := by
  obtain ⟨n, e, p, ⟨ft, len⟩, pd⟩ := f
  cases ft <;>
    simp [File.is_pipe, File.is_char_device, File.is_block_device,
      File.is_socket, File.type_char, File.size, File.is_file,
      File.is_directory, File.is_link, Metadata.is_dir, Metadata.is_file,
      Metadata.is_symlink]

/-- C10 witness. -/
theorem special_stubs_type_size_witness :
    File.size regFile = FSize.some 5 :=
  (special_stubs_type_size regFile).2.2.2.2.2.2.2 rfl

/-- C4 counterexample: `points_to_directory` is not a pure function of the
cached metadata — the same File (a symlink) answers differently on two
filesystem states, because the query re-reads the link and stats its
target. -/
theorem points_to_directory_depends_on_filesystem :
    File.points_to_directory fsResolved 2 linkFile = true
  ∧ File.points_to_directory fsBroken 2 linkFile = false :=
  ⟨by decide, by decide⟩

/-- C4 amended: every derived classification query other than
`points_to_directory` depends only on the File's cached fields (the
metadata-based ones only on the metadata snapshot), so repeated calls agree
whatever happens to the filesystem; `points_to_directory` is
filesystem-independent only for Files that are not symlinks. -/
theorem derived_queries_pure :
    (∀ f g : File, f.metadata = g.metadata →
      f.is_directory = g.is_directory ∧ f.is_file = g.is_file ∧
      f.is_link = g.is_link ∧ f.is_pipe = g.is_pipe ∧
      f.is_char_device = g.is_char_device ∧
      f.is_block_device = g.is_block_device ∧ f.is_socket = g.is_socket ∧
      f.type_char = g.type_char ∧ f.size = g.size)
  ∧ (∀ (fs fs' : FileSystem) (n n' : Nat) (f : File), f.is_link = false →
      File.points_to_directory fs (n + 1) f =
        File.points_to_directory fs' (n' + 1) f) := by
  constructor
  · intro f g h
    simp [File.is_directory, File.is_file, File.is_link, File.is_pipe,
      File.is_char_device, File.is_block_device, File.is_socket,
      File.type_char, File.size, h]
  · intro fs fs' n n' f hl
    rw [points_to_directory_not_link fs n hl,
      points_to_directory_not_link fs' n' hl]

/-- C4 witness. -/
theorem derived_queries_pure_witness :
    File.points_to_directory fsResolved 2 regFile =
      File.points_to_directory fsBroken 2 regFile :=
  derived_queries_pure.2 fsResolved fsBroken 1 1 regFile rfl

/-- C5: on a filesystem whose following stat never reports a symlink,
`points_to_directory` is fuel-independent (the recursion stops after one
explicit resolution) and is true exactly when the File is a directory or is
a symlink whose resolution succeeds with a target that itself points to a
directory; a broken or erroring resolution never makes it true. -/
theorem points_to_directory_spec (fs : FileSystem) (hwf : fs.wellFormed)
    (f : File) (n : Nat) :
    (File.points_to_directory fs (n + 2) f = File.points_to_directory fs 2 f)
  ∧ (File.points_to_directory fs (n + 2) f = true ↔
      (f.is_directory = true ∨ (f.is_link = true ∧
        ∃ t, File.link_target fs f = FileTarget.ok t ∧
          File.points_to_directory fs (n + 1) t = true)))
  ∧ (∀ p : String, f.is_directory = false →
      File.link_target fs f = FileTarget.broken p →
      File.points_to_directory fs (n + 2) f = false)
  ∧ (∀ e : IOError, f.is_directory = false →
      File.link_target fs f = FileTarget.err e →
      File.points_to_directory fs (n + 2) f = false) := by
  have hsucc := points_to_directory_succ fs (n + 1) f
  refine ⟨points_to_directory_fuel_stable hwf n f, ?_, ?_, ?_⟩
  · rw [show n + 2 = (n + 1) + 1 from rfl, hsucc]
    by_cases hd : f.is_directory = true
    · simp [hd]
    · by_cases hl : f.is_link = true
      · rw [if_neg hd, if_pos hl]
        cases ht : File.link_target fs f with
        | ok t =>
          dsimp only
          constructor
          · intro h
            exact Or.inr ⟨hl, t, rfl, h⟩
          · rintro (h | ⟨-, t', ht', h⟩)
            · exact absurd h hd
            · injection ht' with ht'
              rw [ht']
              exact h
        | broken p =>
          dsimp only
          constructor
          · intro h
            exact absurd h (by simp)
          · rintro (h | ⟨-, t', ht', h⟩)
            · exact absurd h hd
            · exact absurd ht' (by simp)
        | err e =>
          dsimp only
          constructor
          · intro h
            exact absurd h (by simp)
          · rintro (h | ⟨-, t', ht', h⟩)
            · exact absurd h hd
            · exact absurd ht' (by simp)
      · rw [if_neg hd, if_neg hl]
        simp [hd, hl]
  · intro p hd ht
    rw [show n + 2 = (n + 1) + 1 from rfl, hsucc, ht]
    simp [hd]
  · intro e hd ht
    rw [show n + 2 = (n + 1) + 1 from rfl, hsucc, ht]
    simp [hd]

/-- C5 witness. -/
theorem points_to_directory_spec_witness :
    File.points_to_directory fsResolved 2 linkFile = true :=
  (points_to_directory_spec fsResolved
    (fun p md h => by
      revert h
      unfold fsResolved
      dsimp only
      by_cases hp : p = "t"
      · rw [if_pos hp]
        intro h
        injection h with h
        rw [← h]
        decide
      · rw [if_neg hp]
        intro h
        exact absurd h (by simp))
    linkFile 0).2.1.mpr
    (Or.inr ⟨rfl, ⟨File.filename "t", File.extOf "t", "t", mdDir, none⟩,
      link_target_resolved fsResolved linkFile "t" mdDir rfl rfl,
      by decide⟩)

/-- C8 counterexample: `name_is_one_of` does not return false for a File
with no extension — a File named `Makefile` with no extension matches. -/
theorem name_is_one_of_true_without_extension :
    makefileFile.ext = none
  ∧ File.name_is_one_of makefileFile ["Makefile"] = true :=
  ⟨rfl, by decide⟩

/-- C8 amended: `extension_is_one_of` and `name_is_one_of` are case-sensitive
membership tests against the cached extension and name respectively;
`extension_is_one_of` (but not `name_is_one_of`) returns false whenever
there is no extension, and `extension_is_one_of []` is false for every
File. -/
theorem one_of_membership (f : File) (cs : List String) :
    (f.ext = none → f.extension_is_one_of cs = false)
  ∧ (∀ e : String, f.ext = some e → f.extension_is_one_of cs = cs.contains e)
  ∧ f.name_is_one_of cs = cs.contains f.name
  ∧ f.extension_is_one_of [] = false := by
  refine ⟨fun h => ?_, fun e h => ?_, rfl, ?_⟩
  · simp [File.extension_is_one_of, h]
  · simp [File.extension_is_one_of, h]
  · unfold File.extension_is_one_of
    cases f.ext <;> simp

/-- C8 witness. -/
theorem one_of_membership_witness :
    File.extension_is_one_of makefileFile ["Makefile"] = false :=
  (one_of_membership makefileFile ["Makefile"]).1 rfl

/-- C9 counterexample: the stored extension is not derived from the derived
name — with a name override `bar.dat` on path `foo.txt`, the constructed
File's extension is `txt` (from the path), not `dat` (the extension of the
derived name). -/
theorem new_extension_ignores_override :
    File.new fsStatFile "foo.txt" none (some "bar.dat") =
      Except.ok ⟨"bar.dat", some "txt", "foo.txt", mdFile, none⟩
  ∧ File.extOf "bar.dat" = some "dat" :=
  ⟨rfl, by decide⟩

/-- C9 amended: `new` stores the override name when given (else the path's
last component) and the extension derived from the path — an override
changes the name but never the extension — with the metadata coming from
the single non-following stat; a failed stat is the only error. -/
theorem new_spec (fs : FileSystem) (path : String) (pd : Option Dir)
    (ov : Option String) :
    (∀ md : Metadata, fs.symlink_metadata path = Except.ok md →
      File.new fs path pd ov =
        Except.ok ⟨ov.getD (File.filename path), File.extOf path, path, md, pd⟩)
  ∧ (∀ e : IOError, fs.symlink_metadata path = Except.error e →
      File.new fs path pd ov = Except.error e) := by
  constructor
  · intro md h
    unfold File.new
    simp only [h]
  · intro e h
    unfold File.new
    simp only [h]

/-- C9 witness. -/
theorem new_spec_witness :
    File.new fsStatFile "foo.txt" none (some "bar.dat") =
      Except.ok ⟨"bar.dat", File.extOf "foo.txt", "foo.txt", mdFile, none⟩ :=
  (new_spec fsStatFile "foo.txt" none (some "bar.dat")).1 mdFile rfl

end Exa
